import Mathlib

/-!
Verification of the reconciliation matching engine of the
conciliacao-bancaria repository.

A shallow embedding of the core: the data model (`Lancamento`,
`Comprovante`, `Match`), the exact-match strategy
(`src/conciliacao/estrategias/exato.py`), the declarative rule engine
(`src/regras/engine.py`), the rule-set validation of the loader
(`src/regras/parser.py`) and the orchestrator
(`src/conciliacao/motor.py`), followed by theorems settling the spec
claims.

Modelling conventions:
* Python `Decimal` amounts and `float` confidence scores are embedded as
  `ℚ`.  All constants involved (0.50, 0.30, 0.25, 0.20, 0.15, 0.05,
  0.60, 0.85, 0.90) are decimal fractions; the embedding computes with
  them exactly.
* Python `date` values are embedded as day numbers `ℤ`; the code only
  ever subtracts two dates and takes `abs(...).days`, which becomes
  `(d1 - d2).natAbs`.
* Receipt "already used" tracking uses Python object identity `id()`.
  Each embedded `Comprovante` carries an identity handle `cid : ℕ`
  (distinct live objects have distinct ids).  The orchestrator also
  stores `id(None)` when it records a rule-based match
  (`usados.add(id(match.comprovante))` in `motor.py`); the consumed-set
  element type is therefore `Option ℕ`, with `none` standing for
  `id(None)`, which is distinct from the identity of every receipt.
* Raised exceptions are embedded as `Except` results.
-/

/-! ## Data model (`src/modelos`) -/

/-- Bank-statement transaction (`src/modelos/lancamento.py`).  Only the
fields read by the matching core are embedded (`data`, `valor`,
`descricao`, `tipo`); the optional `documento`/`categoria`/`saldo`
fields and the `conciliado` flag are never read by the engine. -/
structure Lancamento where
  data : ℤ
  valor : ℚ
  descricao : String
  tipo : String
deriving DecidableEq, Repr

/-- Payment receipt (`src/modelos/comprovante.py`).  `cid` is the object
identity handle (Python `id()`); `confianca_ocr` defaults to `0` when
the receipt is not OCR-derived. -/
structure Comprovante where
  cid : ℕ
  arquivo : String
  data : ℤ
  valor : ℚ
  beneficiario : Option String
  confianca_ocr : ℚ
deriving DecidableEq, Repr

/-- Accepted pairing (`src/modelos/match.py`).  `comprovante = none`
for rule-based auto-matches; `observacoes` is `""` when absent. -/
structure Match where
  lancamento : Lancamento
  comprovante : Option Comprovante
  confianca : ℚ
  metodo : String
  observacoes : String
deriving DecidableEq, Repr

/-- Words of a string, split on runs of whitespace with empty pieces
dropped — Python `str.split()` with no argument. -/
def palavras_de (s : String) : List String :=
  (s.split (fun ch => ch.isWhitespace)).filter (fun w => w ≠ "")

/-- Whitespace normalization performed by `Match.__post_init__`
(`' '.join(self.observacoes.split())`). -/
def normalizar_espacos (s : String) : String :=
  " ".intercalate (palavras_de s)

/-- Match construction through the `Match(...)` dataclass constructor,
whose `__post_init__` collapses whitespace in a non-empty `observacoes`.
The constructor's range checks (confidence in `[0,1]`, method in the
fixed enumeration) always pass on the embedded call sites, which supply
clamped confidences and the literal methods `"exato"`/`"regra"`. -/
def construir_match (l : Lancamento) (c : Option Comprovante) (conf : ℚ)
    (metodo : String) (obs : String) : Match :=
  { lancamento := l, comprovante := c, confianca := conf, metodo := metodo,
    observacoes := normalizar_espacos obs }

/-- Match construction through `criar_match_com_confianca`
(`estrategias/base.py`): the helper builds the `Match` without
`observacoes` and assigns the text afterwards, so the whitespace
normalization of `__post_init__` is bypassed for strategy matches. -/
def criar_match_com_confianca (l : Lancamento) (c : Option Comprovante)
    (conf : ℚ) (metodo : String) (obs : String) : Match :=
  { lancamento := l, comprovante := c, confianca := conf, metodo := metodo,
    observacoes := obs }

/-! ## Exact-match strategy (`src/conciliacao/estrategias/exato.py`) -/

/-- Consumed-set element: `some cid` is the identity of a receipt,
`none` is Python `id(None)` (recorded when a rule-based match is
accepted). -/
abbrev CId := Option ℕ

/-- Identity recorded by the orchestrator for an accepted match:
`id(match.comprovante)`. -/
def idOf (c : Option Comprovante) : CId := c.map Comprovante.cid

/-- Configuration of `EstrategiaExato.__init__`, with the constructor's
default values. -/
structure EstrategiaExatoCfg where
  tolerancia_dias : ℕ := 3
  tolerancia_valor : ℚ := 0
  usar_descricao : Bool := false
  min_similaridade_descricao : ℚ := 0.7
deriving DecidableEq, Repr

/-- Cross-cutting viability check `EstrategiaBase.validar_match`:
rejects sign-mismatched amounts, then zero amounts. -/
def validar_match (l : Lancamento) (c : Comprovante) : Bool :=
  if decide (0 < l.valor) ≠ decide (0 < c.valor) then false
  else if l.valor = 0 ∨ c.valor = 0 then false
  else true

/-- `EstrategiaExato._valores_compativeis`: amount difference within the
configured tolerance. -/
def valores_compativeis (cfg : EstrategiaExatoCfg) (v1 v2 : ℚ) : Bool :=
  |v1 - v2| ≤ cfg.tolerancia_valor

/-- `EstrategiaExato._datas_compativeis`: day difference within the
configured window. -/
def datas_compativeis (cfg : EstrategiaExatoCfg) (d1 d2 : ℤ) : Bool :=
  (d1 - d2).natAbs ≤ cfg.tolerancia_dias

/-- `EstrategiaExato._calcular_similaridade_descricao`: Jaccard
similarity over lower-cased, whitespace-split word sets; `0` when either
input string is empty or both word sets are empty. -/
def calcular_similaridade_descricao (d1 d2 : String) : ℚ :=
  if d1 = "" ∨ d2 = "" then 0
  else
    let p1 := (palavras_de d1.toLower).dedup
    let p2 := (palavras_de d2.toLower).dedup
    let intersecao := p1.filter (fun w => w ∈ p2)
    let uniao := (p1 ++ p2).dedup
    if uniao.length = 0 then 0
    else (intersecao.length : ℚ) / (uniao.length : ℚ)

/-- `EstrategiaExato.calcular_confianca`: additive confidence score,
accumulated in the order of the source (amount, date proximity,
optional description similarity, optional OCR bonus) and clamped to
`[0,1]`.  The OCR bonus gate mirrors the source's truthiness test
`comprovante.confianca_ocr and confianca_ocr >= 0.80`. -/
def calcular_confianca (cfg : EstrategiaExatoCfg) (l : Lancamento)
    (c : Comprovante) : ℚ :=
  let conf1 : ℚ := if l.valor = c.valor then 0 + 0.50 else 0
  let diff_dias := (l.data - c.data).natAbs
  let conf2 :=
    if diff_dias = 0 then conf1 + 0.30
    else if diff_dias = 1 then conf1 + 0.25
    else if diff_dias = 2 then conf1 + 0.20
    else if diff_dias ≤ cfg.tolerancia_dias then conf1 + 0.15
    else conf1
  let conf3 :=
    if cfg.usar_descricao then
      if calcular_similaridade_descricao l.descricao
          (c.beneficiario.getD "") ≥ cfg.min_similaridade_descricao then
        conf2 + 0.15
      else conf2
    else conf2
  let conf4 :=
    if c.confianca_ocr ≠ 0 ∧ c.confianca_ocr ≥ 0.80 then conf3 + 0.05
    else conf3
  max 0 (min 1 conf4)

/-- A rounded percentage rendering used only inside observation text
(Python `f"{x:.0%}"`). -/
def formatar_pct (q : ℚ) : String :=
  toString (round (q * 100)) ++ "%"

/-- `EstrategiaExato._gerar_observacoes`: human-readable notes joined
with `" | "`. -/
def gerar_observacoes (nome : String) (l : Lancamento) (c : Comprovante)
    (conf : ℚ) : String :=
  let nivel :=
    if conf ≥ 0.90 then "✅ Alta confiança - Auto-aprovado"
    else if conf ≥ 0.60 then "⚠️ Média confiança - Revisar"
    else "❌ Baixa confiança - Verificar manualmente"
  let diff_dias := (l.data - c.data).natAbs
  let datas :=
    if diff_dias = 0 then ["Datas exatas"]
    else ["Datas com diferença de " ++ toString diff_dias ++ " dia(s)"]
  let valores := if l.valor = c.valor then ["Valores exatos"] else []
  let ocr :=
    if c.confianca_ocr ≠ 0 ∧ c.confianca_ocr ≥ 0.80 then
      ["OCR confiável (" ++ formatar_pct c.confianca_ocr ++ ")"]
    else []
  " | ".intercalate ([nivel] ++ datas ++ valores ++ ocr ++
    ["Estratégia: " ++ nome])

/-- Candidate gate of the `encontrar_match` loop: not already used,
passes `validar_match`, amount within tolerance, date within window. -/
def candidato_ok (cfg : EstrategiaExatoCfg) (l : Lancamento)
    (usados : List CId) (c : Comprovante) : Bool :=
  !(decide (some c.cid ∈ usados)) && validar_match l c &&
    valores_compativeis cfg l.valor c.valor &&
    datas_compativeis cfg l.data c.data

/-- The candidate-scanning loop of `EstrategiaExato.encontrar_match`:
the accumulator is `(melhor_match, melhor_confianca)`, and a candidate
replaces it only when its confidence is strictly greater. -/
def melhor_loop (cfg : EstrategiaExatoCfg) (l : Lancamento)
    (usados : List CId) : List Comprovante → Option Comprovante × ℚ →
    Option Comprovante × ℚ
  | [], acc => acc
  | c :: cs, acc =>
    if candidato_ok cfg l usados c then
      let conf := calcular_confianca cfg l c
      if acc.2 < conf then melhor_loop cfg l usados cs (some c, conf)
      else melhor_loop cfg l usados cs acc
    else melhor_loop cfg l usados cs acc

/-- `EstrategiaExato.encontrar_match`: scan the receipt pool, keep the
best strictly-improving candidate, and return a `Match` only if a best
candidate exists and its confidence reaches the fixed `0.60` floor. -/
def encontrar_match_exato (cfg : EstrategiaExatoCfg) (l : Lancamento)
    (comprovantes : List Comprovante) (usados : List CId) : Option Match :=
  let melhor := melhor_loop cfg l usados comprovantes (none, 0)
  match melhor.1 with
  | some mc =>
    if melhor.2 ≥ 0.60 then
      some (criar_match_com_confianca l (some mc) melhor.2 "exato"
        (gerar_observacoes "Matching Exato" l mc melhor.2))
    else none
  | none => none

/-! ## Rule engine (`src/regras/engine.py`) -/

/-- Structured values occurring in a parsed rule document (YAML
scalars, lists and mappings).  A `.num` covers both YAML integers and
floats, embedded exactly as `ℚ`. -/
inductive Yaml where
  | str (s : String)
  | num (q : ℚ)
  | bool (b : Bool)
  | list (l : List Yaml)
  | dict (d : List (String × Yaml))
  | null

mutual
/-- Python `==` on YAML values (used by the duplicate-id check of the
loader). -/
def Yaml.beq : Yaml → Yaml → Bool
  | .str a, .str b => a == b
  | .num a, .num b => a == b
  | .bool a, .bool b => a == b
  | .list a, .list b => Yaml.beqLista a b
  | .dict a, .dict b => Yaml.beqDicio a b
  | .null, .null => true
  | _, _ => false
def Yaml.beqLista : List Yaml → List Yaml → Bool
  | [], [] => true
  | a :: as, b :: bs => Yaml.beq a b && Yaml.beqLista as bs
  | _, _ => false
def Yaml.beqDicio : List (String × Yaml) → List (String × Yaml) → Bool
  | [], [] => true
  | (k, v) :: as, (k2, v2) :: bs => k == k2 && Yaml.beq v v2 && Yaml.beqDicio as bs
  | _, _ => false
end

/-- Mapping lookup (`dados["chave"]` / `"chave" in dados` on a dict);
`none` on non-mappings. -/
def Yaml.obter (y : Yaml) (k : String) : Option Yaml :=
  match y with
  | .dict d => d.lookup k
  | _ => none

/-- Python truthiness of a YAML value (used by
`regra.get("ativo", True)`). -/
def Yaml.verdadeiro : Yaml → Bool
  | .str s => s ≠ ""
  | .num q => q ≠ 0
  | .bool b => b
  | .list l => !l.isEmpty
  | .dict d => !d.isEmpty
  | .null => false

/-- The string form of a condition literal, Python `str(item)`
(string and numeric literals are the ones the rule schema uses; the
numeric rendering abstracts Python's `str(Decimal)` and is never
compared in the settled claims). -/
def Yaml.texto : Yaml → String
  | .str s => s
  | .num q => toString q
  | .bool b => toString b
  | .list _ => "[...]"
  | .dict _ => "{...}"
  | .null => "None"

/-- A transaction field value as extracted by
`EngineRegras._obter_valor_campo`: the description/type strings, the
amount, or the date. -/
inductive ValorCampo where
  | str (s : String)
  | num (q : ℚ)
  | dt (d : ℤ)
deriving DecidableEq, Repr

/-- String form of a field value (`str(valor)` before the
case-insensitive operators); numeric/date renderings abstract Python's
`str()` and are never exercised by the settled claims, whose `contains`
and `regex` conditions target string fields. -/
def ValorCampo.texto : ValorCampo → String
  | .str s => s
  | .num q => toString q
  | .dt d => toString d

/-- Substring test on character lists, first the prefix test. -/
def comeca_com : List Char → List Char → Bool
  | [], _ => true
  | _ :: _, [] => false
  | a :: as, b :: bs => a == b && comeca_com as bs

/-- Python's `sub in s` on the underlying character lists. -/
def contem_lista : List Char → List Char → Bool
  | sub, [] => sub.isEmpty
  | sub, c :: rest => comeca_com sub (c :: rest) || contem_lista sub rest

/-- Python's substring operator `sub in s` on strings. -/
def contem_sub (s sub : String) : Bool :=
  contem_lista sub.toList s.toList

/-- An abstract regular-expression matcher standing for
`re.search(pattern, text, re.IGNORECASE)` (with its
invalid-pattern-returns-False behaviour folded in); the engine is
parametric in it and no settled claim exercises a regex condition. -/
abbrev RegexFn := String → String → Bool

/-- `EngineRegras._op_equals` (`valor == esperado`; values of different
runtime types compare unequal). -/
def op_equals : ValorCampo → Yaml → Bool
  | .str s, .str s' => s = s'
  | .num q, .num q' => q = q'
  | _, _ => false

/-- `EngineRegras._op_contains`: case-insensitive substring test on the
string form of the field; a list literal matches if ANY item is a
substring. -/
def op_contains (v : ValorCampo) (esperado : Yaml) : Bool :=
  let s := v.texto.toUpper
  match esperado with
  | .list items => items.any (fun item => contem_sub s item.texto.toUpper)
  | e => contem_sub s e.texto.toUpper

/-- `EngineRegras._op_regex` via the abstract matcher; a non-string
pattern raises in the source and is caught, yielding `false`. -/
def op_regex (rf : RegexFn) (v : ValorCampo) (esperado : Yaml) : Bool :=
  match esperado with
  | .str pat => rf pat v.texto
  | _ => false

/-- `EngineRegras._op_greater_than`: numeric comparison after coercing
the literal to the field's numeric type; string fields compare
lexicographically; mixed combinations raise in the source and are
caught, yielding `false` (numeric-string literal coercion is the
source's silently-fail-closed corner flagged open in the spec). -/
def op_greater_than : ValorCampo → Yaml → Bool
  | .num q, .num q' => q' < q
  | .str s, .str s' => s' < s
  | _, _ => false

/-- `EngineRegras._op_less_than`, dually. -/
def op_less_than : ValorCampo → Yaml → Bool
  | .num q, .num q' => q < q'
  | .str s, .str s' => s < s'
  | _, _ => false

/-- `EngineRegras._op_between`: requires a two-element `[min, max]`
literal, otherwise logs an error and returns `False`; the inclusive
range test covers the numeric case of the rule schema and
lexicographic strings. -/
def op_between (v : ValorCampo) (esperado : Yaml) : Bool :=
  match esperado with
  | .list [minV, maxV] =>
    match v, minV, maxV with
    | .num q, .num a, .num b => decide (a ≤ q ∧ q ≤ b)
    | .str s, .str a, .str b => decide (a ≤ s ∧ s ≤ b)
    | _, _, _ => false
  | _ => false

/-- `EngineRegras._op_in`: list membership via `==`; a non-list literal
logs an error and returns `False`. -/
def op_in (v : ValorCampo) (esperado : Yaml) : Bool :=
  match esperado with
  | .list items => items.any (fun item => op_equals v item)
  | _ => false

/-- `EngineRegras._aplicar_operador`: dispatch on the operator name;
an unknown operator logs a warning and returns `False`. -/
def aplicar_operador (rf : RegexFn) (v : ValorCampo) (operador : String)
    (esperado : Yaml) : Bool :=
  match operador with
  | "equals" => op_equals v esperado
  | "not_equals" => !(op_equals v esperado)
  | "contains" => op_contains v esperado
  | "not_contains" => !(op_contains v esperado)
  | "regex" => op_regex rf v esperado
  | "greater_than" => op_greater_than v esperado
  | "less_than" => op_less_than v esperado
  | "between" => op_between v esperado
  | "in" => op_in v esperado
  | "not_in" => !(op_in v esperado)
  | _ => false

/-- One rule condition (`condicoes` entry): field name, operator name,
literal. -/
structure Condicao where
  campo : String
  operador : String
  valor : Yaml

/-- A rule action (`acao`): kind, optional confidence (`0.85` applies
when absent), optional observation text, optional category label. -/
structure Acao where
  tipo : String
  confianca : Option ℚ
  observacao : Option String
  categoria : Option String
deriving DecidableEq, Repr

/-- A validated rule record as consumed by `EngineRegras`; `prioridade`
and `ativo` carry the `dict.get` defaults `0` and `True`. -/
structure Regra where
  id : String
  nome : String
  prioridade : ℤ := 0
  ativo : Bool := true
  condicoes : List Condicao
  acao : Acao

/-- `EngineRegras._obter_valor_campo`: the fixed field map
{descricao, valor, data, tipo}; unknown fields yield `none`. -/
def obter_valor_campo (l : Lancamento) (campo : String) : Option ValorCampo :=
  match campo with
  | "descricao" => some (.str l.descricao)
  | "valor" => some (.num l.valor)
  | "data" => some (.dt l.data)
  | "tipo" => some (.str l.tipo)
  | _ => none

/-- `EngineRegras._avaliar_condicao`: a condition on a missing field is
false, otherwise the operator is applied. -/
def avaliar_condicao (rf : RegexFn) (l : Lancamento) (c : Condicao) : Bool :=
  match obter_valor_campo l c.campo with
  | none => false
  | some v => aplicar_operador rf v c.operador c.valor

/-- `EngineRegras._avaliar_regra`: logical AND over the rule's
condition list. -/
def avaliar_regra (rf : RegexFn) (l : Lancamento) (r : Regra) : Bool :=
  r.condicoes.all (avaliar_condicao rf l)

/-- `EngineRegras._criar_match`: synthetic match for a satisfied rule —
no receipt, method `"regra"`, the action's confidence (default `0.85`),
observations composed of the action's observation text (defaulted), the
rule id, and the category when present.  The text goes through the
`Match` constructor, which normalizes its whitespace. -/
def criar_match (l : Lancamento) (r : Regra) : Match :=
  let observacao_base :=
    r.acao.observacao.getD ("Auto-conciliado por regra: " ++ r.nome)
  let obs1 := observacao_base ++ "\n" ++ "Regra: " ++ r.id
  let obs2 :=
    match r.acao.categoria with
    | some cat => obs1 ++ "\nCategoria: " ++ cat
    | none => obs1
  construir_match l none (r.acao.confianca.getD 0.85) "regra" obs2

/-- `EngineRegras._ordenar_por_prioridade`: stable descending sort by
priority (Python `list.sort(key=..., reverse=True)` keeps the input
order of equal-priority rules, as insertion sort by `≥` does). -/
def ordenar_por_prioridade (regras : List Regra) : List Regra :=
  regras.insertionSort (fun a b => b.prioridade ≤ a.prioridade)

/-- `EngineRegras.processar`: test the (sorted) rules in order and stop
at the first rule all of whose conditions hold, returning its synthetic
match; `none` when no rule fully matches. -/
def processar (rf : RegexFn) (l : Lancamento) (regras : List Regra) :
    Option Match :=
  match regras.find? (fun r => avaliar_regra rf l r) with
  | some r => some (criar_match l r)
  | none => none

/-! ## Rule loader validation (`src/regras/parser.py`) -/

/-- The ten operator names accepted by `ParserRegras._validar_regras`. -/
def operadores_validos : List String :=
  ["equals", "not_equals", "contains", "not_contains", "regex",
   "greater_than", "less_than", "between", "in", "not_in"]

/-- The action kinds accepted by `ParserRegras._validar_regras`. -/
def tipos_acao_validos : List String :=
  ["auto_aprovar", "sugerir", "ignorar"]

/-- Structural validation of one condition entry
(`_validar_regras`, inner loop): the three keys must be present and the
operator value must be one of the ten known names. -/
def validar_condicao (idRegra : String) (condicao : Yaml) :
    Except String Unit := do
  if (condicao.obter "campo").isNone then
    throw ("Regra " ++ idRegra ++ ": falta campo na condição")
  if (condicao.obter "operador").isNone then
    throw ("Regra " ++ idRegra ++ ": falta operador na condição")
  if (condicao.obter "valor").isNone then
    throw ("Regra " ++ idRegra ++ ": falta valor na condição")
  match condicao.obter "operador" with
  | some (.str op) =>
    if operadores_validos.contains op then pure ()
    else throw ("Regra " ++ idRegra ++ ": operador inválido " ++ op)
  | _ => throw ("Regra " ++ idRegra ++ ": operador inválido")

/-- Structural validation of one rule (`_validar_regras`, outer loop
body): required keys, unique id against the whole document, a non-empty
condition list with valid conditions, and an action mapping whose
`tipo` is one of the known kinds.  There is no check on the shape of a
`between` literal. -/
def validar_regra (todas : List Yaml) (regra : Yaml) :
    Except String Unit := do
  if (regra.obter "id").isNone then
    throw "Regra sem campo obrigatório id"
  if (regra.obter "nome").isNone then
    throw "Regra sem campo obrigatório nome"
  if (regra.obter "condicoes").isNone then
    throw "Regra sem campo obrigatório condicoes"
  if (regra.obter "acao").isNone then
    throw "Regra sem campo obrigatório acao"
  let idAtual := (regra.obter "id").getD .null
  let ids := todas.map (fun r => (r.obter "id").getD .null)
  if 1 < (ids.filter (fun i => Yaml.beq i idAtual)).length then
    throw "ID duplicado encontrado"
  match regra.obter "condicoes" with
  | some (.list condicoes) =>
    if condicoes.isEmpty then
      throw "condicoes não pode estar vazia"
    for condicao in condicoes do
      validar_condicao ((regra.obter "id").getD .null).texto condicao
  | _ => throw "condicoes deve ser uma lista"
  match regra.obter "acao" with
  | some (.dict _) =>
    match (regra.obter "acao").bind (fun a => a.obter "tipo") with
    | some (.str tipo) =>
      if tipos_acao_validos.contains tipo then pure ()
      else throw ("tipo de ação inválido " ++ tipo)
    | some _ => throw "tipo de ação inválido"
    | none => throw "acao deve ter campo tipo"
  | _ => throw "acao deve ser um dicionário"

/-- `ParserRegras._validar_regras` over the full rule list. -/
def validar_regras (regras : List Yaml) : Except String Unit := do
  for regra in regras do
    validar_regra regras regra

/-- The in-memory part of `ParserRegras.carregar`, applied to the
already-parsed YAML document: an empty/`regras`-less document yields
`[]` with a warning; otherwise the rules are validated (raising on the
first structural violation) and only the active ones are returned.
The filesystem concerns of `carregar` (missing file, YAML syntax
errors) happen before this point and are out of the embedding. -/
def carregar (dados : Yaml) : Except String (List Yaml) := do
  match dados.obter "regras" with
  | none => pure []
  | some (.list regras) =>
    validar_regras regras
    pure (regras.filter (fun r => ((r.obter "ativo").getD (.bool true)).verdadeiro))
  | some _ => pure []

/-! ## Orchestrator (`src/conciliacao/motor.py`) -/

/-- A matching strategy as the orchestrator consumes it:
`encontrar_match(lancamento, comprovantes, usados)`. -/
abbrev Estrategia := Lancamento → List Comprovante → List CId → Option Match

/-- The exact-match strategy as an `Estrategia`. -/
def estrategia_exato (cfg : EstrategiaExatoCfg) : Estrategia :=
  fun l comprovantes usados => encontrar_match_exato cfg l comprovantes usados

/-- `EstrategiaRegras.encontrar_match`: ignores the receipt pool and
the consumed set; returns `none` when the loaded rule list is empty,
otherwise delegates to `EngineRegras.processar` over the
priority-sorted rules (`EngineRegras.__init__` sorts once). -/
def estrategia_regras (rf : RegexFn) (regras : List Regra) : Estrategia :=
  fun l _ _ =>
    if (ordenar_por_prioridade regras).length = 0 then none
    else processar rf l (ordenar_por_prioridade regras)

/-- `MotorConciliacao.config` with its constructor defaults. -/
structure MotorConfig where
  tolerancia_dias : ℕ := 3
  tolerancia_valor : ℚ := 0.50
  confianca_minima : ℚ := 0.60
  confianca_auto_aprovar : ℚ := 0.90
deriving DecidableEq, Repr

/-- Input errors of `MotorConciliacao.conciliar`: the `ValueError` on an
empty transaction list and the `ConciliacaoError` on an empty strategy
list. -/
inductive MotorErro where
  | lancamentosVazios
  | nenhumaEstrategia
deriving DecidableEq, Repr

/-- The consumed-set update on acceptance:
`usados.add(id(match.comprovante))` — note that a rule-based match
records `id(None)`. -/
def registrar_match (usados : List CId) (m : Match) : List CId :=
  idOf m.comprovante :: usados

/-- The inner strategy cascade of `conciliar` for one transaction: the
first strategy returning a match whose confidence reaches
`confianca_minima` wins; a lower-confidence match is ignored and the
cascade falls through to the next strategy. -/
def aplicar_estrategias (cfg : MotorConfig) :
    List Estrategia → Lancamento → List Comprovante → List CId →
    Option Match
  | [], _, _, _ => none
  | e :: es, l, comprovantes, usados =>
    match e l comprovantes usados with
    | some m =>
      if m.confianca ≥ cfg.confianca_minima then some m
      else aplicar_estrategias cfg es l comprovantes usados
    | none => aplicar_estrategias cfg es l comprovantes usados

/-- The per-transaction loop of `conciliar`: accepted matches are
collected in input order and their receipt identity is marked
consumed. -/
def conciliar_loop (cfg : MotorConfig) (estrategias : List Estrategia)
    (comprovantes : List Comprovante) :
    List Lancamento → List CId → List Match
  | [], _ => []
  | l :: ls, usados =>
    match aplicar_estrategias cfg estrategias l comprovantes usados with
    | some m =>
      m :: conciliar_loop cfg estrategias comprovantes ls
        (registrar_match usados m)
    | none => conciliar_loop cfg estrategias comprovantes ls usados

/-- `MotorConciliacao.conciliar`: reject an empty transaction list
(`ValueError`) and an empty strategy list (`ConciliacaoError`) before
any matching work; an empty receipt list only triggers a warning.  The
strategy list is the motor's already priority-sorted `estrategias`. -/
def conciliar (cfg : MotorConfig) (estrategias : List Estrategia)
    (lancamentos : List Lancamento) (comprovantes : List Comprovante) :
    Except MotorErro (List Match) :=
  match lancamentos with
  | [] => .error .lancamentosVazios
  | _ :: _ =>
    match estrategias with
    | [] => .error .nenhumaEstrategia
    | _ :: _ =>
      .ok (conciliar_loop cfg estrategias comprovantes lancamentos [])

/-! ## Run statistics (`MotorConciliacao.gerar_estatisticas`) -/

/-- The statistics record returned by `gerar_estatisticas`;
`por_metodo` is the method-count mapping in first-appearance order. -/
structure Estatisticas where
  total_lancamentos : ℕ
  total_matches : ℕ
  taxa_conciliacao : ℚ
  confianca_media : ℚ
  confianca_min : ℚ
  confianca_max : ℚ
  auto_aprovados : ℕ
  requer_revisao : ℕ
  valor_total_conciliado : ℚ
  por_metodo : List (String × ℕ)
  por_confianca_alta : ℕ
  por_confianca_media : ℕ
  por_confianca_baixa : ℕ
deriving DecidableEq, Repr

/-- The all-zero statistics record of the empty-match early return
(its `total_lancamentos` is still the length of the transaction
list). -/
def estatisticas_vazias (lancamentos : List Lancamento) : Estatisticas :=
  { total_lancamentos := lancamentos.length, total_matches := 0,
    taxa_conciliacao := 0, confianca_media := 0, confianca_min := 0,
    confianca_max := 0, auto_aprovados := 0, requer_revisao := 0,
    valor_total_conciliado := 0, por_metodo := [],
    por_confianca_alta := 0, por_confianca_media := 0,
    por_confianca_baixa := 0 }

/-- Minimum of a non-empty confidence list (Python `min(confiancas)`;
the list is never empty where this is called). -/
def minimo_lista : List ℚ → ℚ
  | [] => 0
  | x :: xs => xs.foldl min x

/-- Maximum of a non-empty confidence list (Python `max(confiancas)`). -/
def maximo_lista : List ℚ → ℚ
  | [] => 0
  | x :: xs => xs.foldl max x

/-- Increment one key of the method-count mapping, appending new keys at
the end (Python dict insertion order). -/
def incrementar_metodo : List (String × ℕ) → String → List (String × ℕ)
  | [], k => [(k, 1)]
  | (k0, n) :: resto, k =>
    if k0 = k then (k0, n + 1) :: resto
    else (k0, n) :: incrementar_metodo resto k

/-- `MotorConciliacao.gerar_estatisticas`: the empty-match early return
yields the zero record; otherwise the reconciliation rate divides by
`len(lancamentos)` with no guard, which on an empty transaction list is
Python's `ZeroDivisionError`. -/
inductive ErroCalculo where
  | divisaoPorZero
deriving DecidableEq, Repr

/-- See `ErroCalculo`; the body mirrors the source's computation
order. -/
def gerar_estatisticas (cfg : MotorConfig) (ms : List Match)
    (lancamentos : List Lancamento) : Except ErroCalculo Estatisticas :=
  match ms with
  | [] => .ok (estatisticas_vazias lancamentos)
  | _ :: _ =>
    if lancamentos.length = 0 then .error .divisaoPorZero
    else
      let confiancas := ms.map Match.confianca
      let auto := (ms.filter
        (fun m => m.confianca ≥ cfg.confianca_auto_aprovar)).length
      .ok
        { total_lancamentos := lancamentos.length,
          total_matches := ms.length,
          taxa_conciliacao := (ms.length : ℚ) / (lancamentos.length : ℚ),
          confianca_media := confiancas.sum / (confiancas.length : ℚ),
          confianca_min := minimo_lista confiancas,
          confianca_max := maximo_lista confiancas,
          auto_aprovados := auto,
          requer_revisao := ms.length - auto,
          valor_total_conciliado :=
            (ms.map (fun m => m.lancamento.valor)).sum,
          por_metodo :=
            ms.foldl (fun d m => incrementar_metodo d m.metodo) [],
          por_confianca_alta :=
            (ms.filter (fun m => m.confianca ≥ 0.90)).length,
          por_confianca_media :=
            (ms.filter
              (fun m => 0.70 ≤ m.confianca ∧ m.confianca < 0.90)).length,
          por_confianca_baixa :=
            (ms.filter
              (fun m => 0.60 ≤ m.confianca ∧ m.confianca < 0.70)).length }

/-! ## Derived predicates and concrete scenario instances -/

/-- The contract of §4.1 that both shipped strategies obey: a strategy
never returns a receipt whose identity is already in the consumed
set. -/
def RespeitaUsados (e : Estrategia) : Prop :=
  ∀ l comprovantes usados m c,
    e l comprovantes usados = some m → m.comprovante = some c →
    some c.cid ∉ usados

/-- No two matches of a run reference the same receipt identity. -/
def SemReusoDeComprovante (ms : List Match) : Prop :=
  ms.Pairwise (fun m1 m2 => ∀ c1 c2,
    m1.comprovante = some c1 → m2.comprovante = some c2 → c1.cid ≠ c2.cid)

/-- Unwrap a successful reconciliation run (used to state concrete
witnesses without binders). -/
def ok_ou_vazio (r : Except MotorErro (List Match)) : List Match :=
  match r with
  | .ok ms => ms
  | .error _ => []

/-- Regex matcher used by concrete instances; no exercised rule has a
regex condition. -/
def rf_falso : RegexFn := fun _ _ => false

/-- The motor's default configuration map. -/
def mcfg_padrao : MotorConfig := {}

/-- The exact-match strategy's default construction. -/
def cfg_exato_padrao : EstrategiaExatoCfg := {}

/-- Receipt-reuse scenario: two transactions that both match the one
receipt below. -/
def lanc_reuso_a : Lancamento :=
  { data := 10, valor := 150, descricao := "PAGAMENTO FORNECEDOR X", tipo := "D" }

/-- Second transaction of the receipt-reuse scenario. -/
def lanc_reuso_b : Lancamento :=
  { data := 10, valor := 150, descricao := "PAGAMENTO FORNECEDOR X 2", tipo := "D" }

/-- The single receipt of the receipt-reuse scenario. -/
def comp_reuso : Comprovante :=
  { cid := 7, arquivo := "nf_150.pdf", data := 10, valor := 150,
    beneficiario := none, confianca_ocr := 0 }

/-- A strategy that always offers a fixed low-confidence match, used to
exhibit the cascade falling through below the acceptance threshold. -/
def match_baixa_confianca : Match :=
  criar_match_com_confianca lanc_reuso_a none 0.50 "manual" ""

/-- See `match_baixa_confianca`. -/
def estrategia_baixa : Estrategia := fun _ _ _ => some match_baixa_confianca

/-- Low-score scenario for the exact strategy: a tolerance of `1.00`
admits a receipt whose amount differs, leaving only the date points. -/
def cfg_exato_tolerante : EstrategiaExatoCfg := { tolerancia_valor := 1 }

/-- Transaction of the low-score scenario. -/
def lanc_baixo : Lancamento :=
  { data := 0, valor := 100, descricao := "COMPRA LOJA", tipo := "D" }

/-- Receipt of the low-score scenario: compatible amount (difference
`0.50` within tolerance `1.00`) but not exact, same date — score `0.30`,
below the `0.60` floor. -/
def comp_baixo : Comprovante :=
  { cid := 3, arquivo := "recibo.pdf", data := 0, valor := 100.50,
    beneficiario := none, confianca_ocr := 0 }

/-- The rule auto-approval scenario's transaction
(`TARIFA DOC TRANSFERENCIA`, `15.00`, type `D`). -/
def lanc_tarifa_doc : Lancamento :=
  { data := 5, valor := 15, descricao := "TARIFA DOC TRANSFERENCIA", tipo := "D" }

/-- The rule of the auto-approval scenario: description contains
`"TARIFA"` and type equals `"D"`, with the action's confidence left as
a parameter (`none` means the engine's `0.85` default applies). -/
def regra_tarifa (conf : Option ℚ) : Regra :=
  { id := "tarifa_doc", nome := "Tarifa DOC",
    prioridade := 10, ativo := true,
    condicoes :=
      [{ campo := "descricao", operador := "contains", valor := .str "TARIFA" },
       { campo := "tipo", operador := "equals", valor := .str "D" }],
    acao := { tipo := "auto_aprovar", confianca := conf,
              observacao := none, categoria := none } }

/-- Higher-priority rule of the cascade scenario: matches any debit. -/
def regra_alta : Regra :=
  { id := "regra_alta", nome := "Regra Alta", prioridade := 20,
    condicoes := [{ campo := "tipo", operador := "equals", valor := .str "D" }],
    acao := { tipo := "auto_aprovar", confianca := some 0.95,
              observacao := none, categoria := none } }

/-- Lower-priority rule of the cascade scenario: also matches any
debit. -/
def regra_baixa : Regra :=
  { id := "regra_baixa", nome := "Regra Baixa", prioridade := 5,
    condicoes := [{ campo := "tipo", operador := "equals", valor := .str "D" }],
    acao := { tipo := "auto_aprovar", confianca := some 0.90,
              observacao := none, categoria := none } }

/-- Non-matching highest-priority rule of the cascade scenario: it
requires a credit transaction, so the debit transaction skips it and
the cascade falls through to the later matching rule. -/
def regra_credito : Regra :=
  { id := "regra_credito", nome := "Regra Credito", prioridade := 30,
    condicoes := [{ campo := "tipo", operador := "equals", valor := .str "C" }],
    acao := { tipo := "auto_aprovar", confianca := some 0.95,
              observacao := none, categoria := none } }

/-- A well-formed rule document entry whose `between` literal is not a
two-element `[min, max]` list. -/
def regra_between_escalar : Yaml :=
  .dict [("id", .str "r_between"), ("nome", .str "Regra Between"),
         ("condicoes", .list [.dict [("campo", .str "valor"),
                                     ("operador", .str "between"),
                                     ("valor", .num 10)]]),
         ("acao", .dict [("tipo", .str "auto_aprovar")])]

/-- The rule document holding only `regra_between_escalar`. -/
def doc_between_escalar : Yaml :=
  .dict [("regras", .list [regra_between_escalar])]

/-- A rule entry with an unknown operator name. -/
def regra_op_desconhecido : Yaml :=
  .dict [("id", .str "r_op"), ("nome", .str "Regra Op"),
         ("condicoes", .list [.dict [("campo", .str "valor"),
                                     ("operador", .str "maior_que"),
                                     ("valor", .num 10)]]),
         ("acao", .dict [("tipo", .str "auto_aprovar")])]

/-- A rule entry missing the required `nome` field. -/
def regra_sem_nome : Yaml :=
  .dict [("id", .str "r_sem_nome"),
         ("condicoes", .list [.dict [("campo", .str "tipo"),
                                     ("operador", .str "equals"),
                                     ("valor", .str "D")]]),
         ("acao", .dict [("tipo", .str "auto_aprovar")])]

/-- A rule entry with an unknown action kind. -/
def regra_acao_invalida : Yaml :=
  .dict [("id", .str "r_acao"), ("nome", .str "Regra Acao"),
         ("condicoes", .list [.dict [("campo", .str "tipo"),
                                     ("operador", .str "equals"),
                                     ("valor", .str "D")]]),
         ("acao", .dict [("tipo", .str "aprovar_tudo")])]

/-- A valid rule entry, duplicated to trigger the unique-id check. -/
def regra_dup : Yaml :=
  .dict [("id", .str "r_dup"), ("nome", .str "Regra Dup"),
         ("condicoes", .list [.dict [("campo", .str "tipo"),
                                     ("operador", .str "equals"),
                                     ("valor", .str "D")]]),
         ("acao", .dict [("tipo", .str "auto_aprovar")])]

/-- A rule-based match as accepted in the frame-effect scenario. -/
def match_regra_frame : Match := criar_match lanc_tarifa_doc (regra_tarifa none)

/-- Pool receipt of the frame-effect scenario. -/
def comp_frame : Comprovante :=
  { cid := 11, arquivo := "nf_frame.pdf", data := 5, valor := 15,
    beneficiario := none, confianca_ocr := 0 }

/-- Transaction used by the frame-effect and empty-pool scenarios. -/
def lanc_frame : Lancamento :=
  { data := 5, valor := 15, descricao := "PAGAMENTO FRAME", tipo := "D" }

/-- A match with confidence `0.80`, input of the statistics scenario. -/
def match_est : Match :=
  criar_match_com_confianca lanc_frame (some comp_frame) 0.80 "exato" ""

/-! ## Helper lemmas -/

theorem aplicar_estrategias_confianca (cfg : MotorConfig) :
    ∀ (es : List Estrategia) (l : Lancamento) (cs : List Comprovante)
      (usados : List CId) (m : Match),
      aplicar_estrategias cfg es l cs usados = some m →
      cfg.confianca_minima ≤ m.confianca := by
  intro es
  induction es with
  | nil => intro l cs usados m h; simp [aplicar_estrategias] at h
  | cons e es ih =>
    intro l cs usados m h
    cases he : e l cs usados with
    | none =>
      simp only [aplicar_estrategias, he] at h
      exact ih l cs usados m h
    | some m0 =>
      simp only [aplicar_estrategias, he] at h
      by_cases hc : m0.confianca ≥ cfg.confianca_minima
      · rw [if_pos hc] at h
        cases h
        exact hc
      · rw [if_neg hc] at h
        exact ih l cs usados m h

theorem conciliar_loop_confianca (cfg : MotorConfig) (es : List Estrategia)
    (cs : List Comprovante) :
    ∀ (ls : List Lancamento) (usados : List CId) (m : Match),
      m ∈ conciliar_loop cfg es cs ls usados →
      cfg.confianca_minima ≤ m.confianca := by
  intro ls
  induction ls with
  | nil => intro usados m h; simp [conciliar_loop] at h
  | cons l ls ih =>
    intro usados m h
    cases ha : aplicar_estrategias cfg es l cs usados with
    | none =>
      simp only [conciliar_loop, ha] at h
      exact ih _ m h
    | some m0 =>
      simp only [conciliar_loop, ha] at h
      rcases List.mem_cons.mp h with h1 | h2
      · subst h1
        exact aplicar_estrategias_confianca cfg es l cs usados m ha
      · exact ih _ m h2

/-! ## Claim theorems -/

/-- C2: every `Match` returned by `conciliar` has confidence at least
the configured `confianca_minima` (default `0.60`); a strategy result
below the threshold is ignored and the cascade falls through to the
next strategy instead of recording the match. -/
theorem conciliar_confianca_minima (cfg : MotorConfig) :
    (∀ (es : List Estrategia) (ls : List Lancamento)
       (cs : List Comprovante) (ms : List Match),
       conciliar cfg es ls cs = Except.ok ms →
       ∀ m ∈ ms, cfg.confianca_minima ≤ m.confianca) ∧
    (∀ (e : Estrategia) (es : List Estrategia) (l : Lancamento)
       (cs : List Comprovante) (usados : List CId) (m : Match),
       e l cs usados = some m → m.confianca < cfg.confianca_minima →
       aplicar_estrategias cfg (e :: es) l cs usados =
         aplicar_estrategias cfg es l cs usados) := by
  constructor
  · intro es ls cs ms h m hm
    cases ls with
    | nil => simp [conciliar] at h
    | cons l0 ls' =>
      cases es with
      | nil => simp [conciliar] at h
      | cons e0 es' =>
        simp only [conciliar, Except.ok.injEq] at h
        subst h
        exact conciliar_loop_confianca cfg _ cs _ _ m hm
  · intro e es l cs usados m he hlt
    simp only [aplicar_estrategias, he]
    rw [if_neg (not_le.mpr hlt)]

/-- Witness for C2: a strategy offering a `0.50`-confidence match under
the default `0.60` minimum is skipped, the cascade continuing as if the
strategy were absent. -/
theorem conciliar_confianca_minima_witness :
    aplicar_estrategias mcfg_padrao [estrategia_baixa] lanc_reuso_a [] [] =
      aplicar_estrategias mcfg_padrao [] lanc_reuso_a [] [] :=
  (conciliar_confianca_minima mcfg_padrao).2 estrategia_baixa [] lanc_reuso_a
    [] [] match_baixa_confianca rfl (by with_unfolding_all decide)

/-- C9: `conciliar` fails with an input error exactly when the
transaction list is empty (`ValueError`) or no strategies are
registered (`ConciliacaoError`), before any matching work; an empty
receipt list is accepted and the run proceeds, the exact-match strategy
then finding nothing (only receipt-free strategies can produce
matches). -/
theorem conciliar_erros_entrada (cfg : MotorConfig) :
    (∀ (es : List Estrategia) (ls : List Lancamento) (cs : List Comprovante),
       (∃ err, conciliar cfg es ls cs = Except.error err) ↔
         (ls = [] ∨ es = [])) ∧
    (∀ (es : List Estrategia) (ls : List Lancamento),
       ls ≠ [] → es ≠ [] →
       conciliar cfg es ls [] =
         Except.ok (conciliar_loop cfg es [] ls [])) ∧
    (∀ (cfgE : EstrategiaExatoCfg) (l : Lancamento) (usados : List CId),
       encontrar_match_exato cfgE l [] usados = none) := by
  refine ⟨?_, ?_, ?_⟩
  · intro es ls cs
    constructor
    · rintro ⟨err, h⟩
      cases ls with
      | nil => exact Or.inl rfl
      | cons l ls' =>
        cases es with
        | nil => exact Or.inr rfl
        | cons e es' => simp [conciliar] at h
    · rintro (h | h)
      · subst h
        exact ⟨.lancamentosVazios, rfl⟩
      · subst h
        cases ls with
        | nil => exact ⟨.lancamentosVazios, rfl⟩
        | cons l ls' => exact ⟨.nenhumaEstrategia, rfl⟩
  · intro es ls h1 h2
    cases ls with
    | nil => exact absurd rfl h1
    | cons l ls' =>
      cases es with
      | nil => exact absurd rfl h2
      | cons e es' => rfl
  · intro cfgE l usados
    rfl

/-- Witness for C9: an empty transaction list is rejected with an input
error, while the exact strategy over an empty receipt pool returns no
match. -/
theorem conciliar_erros_entrada_witness :
    (∃ err, conciliar mcfg_padrao [estrategia_exato cfg_exato_padrao] [] [] =
      Except.error err) ∧
    encontrar_match_exato cfg_exato_padrao lanc_frame [] [] = none :=
  ⟨((conciliar_erros_entrada mcfg_padrao).1 _ _ _).mpr (Or.inl rfl),
   (conciliar_erros_entrada mcfg_padrao).2.2 cfg_exato_padrao lanc_frame []⟩

/-- C10: `gerar_estatisticas` guards its division only through the
empty-match early return — an empty match list yields the zero
statistics record for any transaction list, while a non-empty match
list divides by the transaction count unguarded, so a non-empty match
list with an empty transaction list fails with a division-by-zero
error. -/
theorem gerar_estatisticas_divisao (cfg : MotorConfig) :
    (∀ ls : List Lancamento,
       gerar_estatisticas cfg [] ls = Except.ok (estatisticas_vazias ls)) ∧
    (∀ ms : List Match, ms ≠ [] →
       gerar_estatisticas cfg ms [] = Except.error .divisaoPorZero) ∧
    (∀ (ms : List Match) (ls : List Lancamento), ms ≠ [] → ls ≠ [] →
       ∃ st, gerar_estatisticas cfg ms ls = Except.ok st ∧
         st.taxa_conciliacao = (ms.length : ℚ) / (ls.length : ℚ)) := by
  refine ⟨fun ls => rfl, ?_, ?_⟩
  · intro ms h
    cases ms with
    | nil => exact absurd rfl h
    | cons m ms' => rfl
  · intro ms ls h1 h2
    cases ms with
    | nil => exact absurd rfl h1
    | cons m ms' =>
      cases ls with
      | nil => exact absurd rfl h2
      | cons l ls' => exact ⟨_, rfl, rfl⟩

/-- Witness for C10: one `0.80`-confidence match against an empty
transaction list is a division-by-zero error; an empty match list
against one transaction is the zero record. -/
theorem gerar_estatisticas_divisao_witness :
    gerar_estatisticas mcfg_padrao [match_est] [] =
      Except.error .divisaoPorZero ∧
    gerar_estatisticas mcfg_padrao [] [lanc_frame] =
      Except.ok (estatisticas_vazias [lanc_frame]) :=
  ⟨(gerar_estatisticas_divisao mcfg_padrao).2.1 [match_est]
      (List.cons_ne_nil _ _),
   (gerar_estatisticas_divisao mcfg_padrao).1 [lanc_frame]⟩

theorem candidato_ok_usados_none (cfg : EstrategiaExatoCfg) (l : Lancamento)
    (usados : List CId) (c : Comprovante) :
    candidato_ok cfg l (none :: usados) c = candidato_ok cfg l usados c := by
  simp [candidato_ok, List.mem_cons]

theorem melhor_loop_usados_none (cfg : EstrategiaExatoCfg) (l : Lancamento)
    (usados : List CId) :
    ∀ (cs : List Comprovante) (acc : Option Comprovante × ℚ),
      melhor_loop cfg l (none :: usados) cs acc =
        melhor_loop cfg l usados cs acc := by
  intro cs
  induction cs with
  | nil => intro acc; rfl
  | cons c cs ih =>
    intro acc
    simp only [melhor_loop, candidato_ok_usados_none, ih]

/-- C8: accepting a rule-based match (one with a null receipt) consumes
no pool receipt — the identity the orchestrator records for it is
`id(None)`, which equals no receipt's identity, so the consumed-set
membership of every receipt and the exact strategy's candidate scan are
unchanged, leaving every pool receipt available to later
transactions. -/
theorem registrar_match_sem_comprovante (m : Match)
    (hm : m.comprovante = none) (usados : List CId) :
    (∀ c : Comprovante,
       some c.cid ∈ registrar_match usados m ↔ some c.cid ∈ usados) ∧
    (∀ (cfg : EstrategiaExatoCfg) (l : Lancamento) (cs : List Comprovante),
       encontrar_match_exato cfg l cs (registrar_match usados m) =
         encontrar_match_exato cfg l cs usados) := by
  have hreg : registrar_match usados m = none :: usados := by
    simp [registrar_match, idOf, hm]
  constructor
  · intro c
    rw [hreg]
    simp
  · intro cfg l cs
    rw [hreg]
    simp only [encontrar_match_exato, melhor_loop_usados_none]

/-- Witness for C8: after accepting the concrete rule-based match, the
pool receipt is still not in the consumed set and the exact strategy
still scans it exactly as before. -/
theorem registrar_match_sem_comprovante_witness :
    (some comp_frame.cid ∈ registrar_match [] match_regra_frame ↔
      some comp_frame.cid ∈ ([] : List CId)) ∧
    encontrar_match_exato cfg_exato_padrao lanc_frame [comp_frame]
        (registrar_match [] match_regra_frame) =
      encontrar_match_exato cfg_exato_padrao lanc_frame [comp_frame] [] :=
  ⟨(registrar_match_sem_comprovante match_regra_frame rfl []).1 comp_frame,
   (registrar_match_sem_comprovante match_regra_frame rfl []).2
     cfg_exato_padrao lanc_frame [comp_frame]⟩

theorem melhor_loop_spec (cfg : EstrategiaExatoCfg) (l : Lancamento)
    (usados : List CId) :
    ∀ (cs : List Comprovante) (co : Option Comprovante) (b : ℚ)
      (c : Comprovante) (q : ℚ),
      melhor_loop cfg l usados cs (co, b) = (some c, q) →
      (co = some c ∧ b = q ∧
        ∀ c' ∈ cs, candidato_ok cfg l usados c' = true →
          calcular_confianca cfg l c' ≤ q) ∨
      (candidato_ok cfg l usados c = true ∧
        q = calcular_confianca cfg l c ∧ b < q ∧
        ∃ pre post, cs = pre ++ c :: post ∧
          (∀ c' ∈ pre, candidato_ok cfg l usados c' = true →
            calcular_confianca cfg l c' < q) ∧
          (∀ c' ∈ post, candidato_ok cfg l usados c' = true →
            calcular_confianca cfg l c' ≤ q)) := by
  intro cs
  induction cs with
  | nil =>
    intro co b c q h
    simp only [melhor_loop, Prod.mk.injEq] at h
    exact Or.inl ⟨h.1, h.2, by simp⟩
  | cons c0 cs ih =>
    intro co b c q h
    by_cases hok : candidato_ok cfg l usados c0 = true
    · simp only [melhor_loop, hok, if_true] at h
      by_cases hb : b < calcular_confianca cfg l c0
      · rw [if_pos hb] at h
        rcases ih (some c0) (calcular_confianca cfg l c0) c q h with
          ⟨h1, h2, h3⟩ | ⟨h1, h2, h3, pre, post, heq, hpre, hpost⟩
        · obtain rfl : c0 = c := Option.some.injEq .. ▸ h1
          refine Or.inr ⟨hok, h2.symm, h2 ▸ hb, [], cs, rfl, by simp, h3⟩
        · refine Or.inr ⟨h1, h2, lt_trans hb h3, c0 :: pre, post,
            by rw [heq]; rfl, ?_, hpost⟩
          intro c' hc' hokc'
          rcases List.mem_cons.mp hc' with rfl | hc'
          · exact h3
          · exact hpre c' hc' hokc'
      · rw [if_neg hb] at h
        rcases ih co b c q h with
          ⟨h1, h2, h3⟩ | ⟨h1, h2, h3, pre, post, heq, hpre, hpost⟩
        · refine Or.inl ⟨h1, h2, ?_⟩
          intro c' hc' hokc'
          rcases List.mem_cons.mp hc' with rfl | hc'
          · exact h2 ▸ le_of_not_lt hb
          · exact h3 c' hc' hokc'
        · refine Or.inr ⟨h1, h2, h3, c0 :: pre, post,
            by rw [heq]; rfl, ?_, hpost⟩
          intro c' hc' hokc'
          rcases List.mem_cons.mp hc' with rfl | hc'
          · exact lt_of_le_of_lt (le_of_not_lt hb) h3
          · exact hpre c' hc' hokc'
    · simp only [melhor_loop, hok, if_false] at h
      rcases ih co b c q h with
        ⟨h1, h2, h3⟩ | ⟨h1, h2, h3, pre, post, heq, hpre, hpost⟩
      · refine Or.inl ⟨h1, h2, ?_⟩
        intro c' hc' hokc'
        rcases List.mem_cons.mp hc' with rfl | hc'
        · exact absurd hokc' hok
        · exact h3 c' hc' hokc'
      · refine Or.inr ⟨h1, h2, h3, c0 :: pre, post,
          by rw [heq]; rfl, ?_, hpost⟩
        intro c' hc' hokc'
        rcases List.mem_cons.mp hc' with rfl | hc'
        · exact absurd hokc' hok
        · exact hpre c' hc' hokc'

theorem encontrar_match_exato_algum (cfg : EstrategiaExatoCfg)
    (l : Lancamento) (comps : List Comprovante) (usados : List CId)
    (m : Match)
    (hm : encontrar_match_exato cfg l comps usados = some m) :
    ∃ c q, melhor_loop cfg l usados comps (none, 0) = (some c, q) ∧
      q ≥ 0.60 ∧
      m = criar_match_com_confianca l (some c) q "exato"
        (gerar_observacoes "Matching Exato" l c q) := by
  rcases hbest : melhor_loop cfg l usados comps (none, 0) with ⟨co, q⟩
  cases co with
  | none =>
    simp only [encontrar_match_exato, hbest] at hm
    exact Option.noConfusion hm
  | some mc =>
    simp only [encontrar_match_exato, hbest] at hm
    by_cases hq : q ≥ 0.60
    · rw [if_pos hq] at hm
      obtain rfl := Option.some.inj hm
      exact ⟨mc, q, rfl, hq, rfl⟩
    · rw [if_neg hq] at hm
      exact Option.noConfusion hm

theorem encontrar_match_exato_ok (cfg : EstrategiaExatoCfg)
    (l : Lancamento) (comps : List Comprovante) (usados : List CId)
    (m : Match) (c : Comprovante)
    (hm : encontrar_match_exato cfg l comps usados = some m)
    (hc : m.comprovante = some c) :
    candidato_ok cfg l usados c = true := by
  obtain ⟨c0, q, hbest, hq, rfl⟩ :=
    encontrar_match_exato_algum cfg l comps usados m hm
  simp only [criar_match_com_confianca, Option.some.injEq] at hc
  subst hc
  rcases melhor_loop_spec cfg l usados comps none 0 c0 q hbest with
    ⟨h1, _, _⟩ | ⟨h1, _⟩
  · exact Option.noConfusion h1
  · exact h1

/-- C5: `encontrar_match` returns a `Match` on the candidate with the
highest computed score among the unused receipts passing the viability
check and the amount/date gates, first-seen winning ties (every
eligible receipt strictly before the winner scores strictly less, every
eligible receipt at most as much); and it returns `none` whenever every
eligible candidate scores below the fixed `0.60` floor. -/
theorem encontrar_match_exato_melhor (cfg : EstrategiaExatoCfg)
    (l : Lancamento) (comps : List Comprovante) (usados : List CId) :
    (∀ m, encontrar_match_exato cfg l comps usados = some m →
      ∃ c pre post,
        comps = pre ++ c :: post ∧
        candidato_ok cfg l usados c = true ∧
        m.comprovante = some c ∧
        m.confianca = calcular_confianca cfg l c ∧
        m.metodo = "exato" ∧
        (0.60 : ℚ) ≤ m.confianca ∧
        (∀ c' ∈ pre, candidato_ok cfg l usados c' = true →
          calcular_confianca cfg l c' < calcular_confianca cfg l c) ∧
        (∀ c' ∈ comps, candidato_ok cfg l usados c' = true →
          calcular_confianca cfg l c' ≤ calcular_confianca cfg l c)) ∧
    ((∀ c' ∈ comps, candidato_ok cfg l usados c' = true →
        calcular_confianca cfg l c' < 0.60) →
      encontrar_match_exato cfg l comps usados = none) := by
  constructor
  · intro m hm
    obtain ⟨c0, q, hbest, hq, rfl⟩ :=
      encontrar_match_exato_algum cfg l comps usados m hm
    rcases melhor_loop_spec cfg l usados comps none 0 c0 q hbest with
      ⟨h1, _, _⟩ | ⟨hok, hconf, _, pre, post, heq, hpre, hpost⟩
    · exact Option.noConfusion h1
    · subst hconf
      refine ⟨c0, pre, post, heq, hok, rfl, rfl, rfl, hq, hpre, ?_⟩
      intro c' hc' hokc'
      rw [heq] at hc'
      rcases List.mem_append.mp hc' with h | h
      · exact le_of_lt (hpre c' h hokc')
      · rcases List.mem_cons.mp h with rfl | h
        · exact le_refl _
        · exact hpost c' h hokc'
  · intro hall
    rcases hbest : melhor_loop cfg l usados comps (none, 0) with ⟨co, q⟩
    cases co with
    | none => simp only [encontrar_match_exato, hbest]
    | some mc =>
      rcases melhor_loop_spec cfg l usados comps none 0 mc q hbest with
        ⟨h1, _, _⟩ | ⟨hok, hconf, _, pre, post, heq, _, _⟩
      · exact Option.noConfusion h1
      · have hmem : mc ∈ comps := by
          rw [heq]
          exact List.mem_append_right _ (List.mem_cons_self _ _)
        have hlt : q < 0.60 := hconf ▸ hall mc hmem hok
        simp only [encontrar_match_exato, hbest]
        rw [if_neg (not_le.mpr hlt)]

/-- Witness for C5: one receipt whose amount differs by `0.50` within a
`1.00` tolerance on the same day scores only `0.30`; below the `0.60`
floor the strategy returns `none` even though a best candidate
existed. -/
theorem encontrar_match_exato_melhor_witness :
    encontrar_match_exato cfg_exato_tolerante lanc_baixo [comp_baixo] [] =
      none :=
  (encontrar_match_exato_melhor cfg_exato_tolerante lanc_baixo
      [comp_baixo] []).2
    (by
      intro c' hc' hok
      obtain rfl := List.mem_singleton.mp hc'
      with_unfolding_all decide)

theorem candidato_ok_nao_usado (cfg : EstrategiaExatoCfg) (l : Lancamento)
    (usados : List CId) (c : Comprovante)
    (h : candidato_ok cfg l usados c = true) : some c.cid ∉ usados := by
  simp only [candidato_ok, Bool.and_eq_true, Bool.not_eq_true',
    decide_eq_false_iff_not] at h
  exact h.1.1.1

theorem estrategia_exato_respeita (cfg : EstrategiaExatoCfg) :
    RespeitaUsados (estrategia_exato cfg) := by
  intro l cs usados m c hm hc
  exact candidato_ok_nao_usado cfg l usados c
    (encontrar_match_exato_ok cfg l cs usados m c hm hc)

theorem processar_comprovante_none (rf : RegexFn) (l : Lancamento)
    (rs : List Regra) (m : Match) (h : processar rf l rs = some m) :
    m.comprovante = none := by
  simp only [processar] at h
  cases hf : rs.find? (fun r => avaliar_regra rf l r) with
  | none =>
    rw [hf] at h
    exact Option.noConfusion h
  | some r =>
    rw [hf] at h
    obtain rfl := Option.some.inj h
    rfl

theorem estrategia_regras_respeita (rf : RegexFn) (rs : List Regra) :
    RespeitaUsados (estrategia_regras rf rs) := by
  intro l cs usados m c hm hc
  exfalso
  simp only [estrategia_regras] at hm
  by_cases hlen : (ordenar_por_prioridade rs).length = 0
  · rw [if_pos hlen] at hm
    exact Option.noConfusion hm
  · rw [if_neg hlen] at hm
    have := processar_comprovante_none rf l (ordenar_por_prioridade rs) m hm
    rw [this] at hc
    exact Option.noConfusion hc

theorem aplicar_estrategias_respeita (cfg : MotorConfig) :
    ∀ (es : List Estrategia), (∀ e ∈ es, RespeitaUsados e) →
    ∀ (l : Lancamento) (cs : List Comprovante) (usados : List CId)
      (m : Match) (c : Comprovante),
      aplicar_estrategias cfg es l cs usados = some m →
      m.comprovante = some c → some c.cid ∉ usados := by
  intro es
  induction es with
  | nil =>
    intro _ l cs usados m c h
    simp [aplicar_estrategias] at h
  | cons e es ih =>
    intro hres l cs usados m c h hc
    cases he : e l cs usados with
    | none =>
      simp only [aplicar_estrategias, he] at h
      exact ih (fun e' he' => hres e' (List.mem_cons_of_mem _ he'))
        l cs usados m c h hc
    | some m0 =>
      simp only [aplicar_estrategias, he] at h
      by_cases hcf : m0.confianca ≥ cfg.confianca_minima
      · rw [if_pos hcf] at h
        cases h
        exact hres e (List.mem_cons_self _ _) l cs usados m c he hc
      · rw [if_neg hcf] at h
        exact ih (fun e' he' => hres e' (List.mem_cons_of_mem _ he'))
          l cs usados m c h hc

theorem conciliar_loop_fresh (cfg : MotorConfig) (es : List Estrategia)
    (cs : List Comprovante) (hres : ∀ e ∈ es, RespeitaUsados e) :
    ∀ (ls : List Lancamento) (usados : List CId) (m : Match)
      (c : Comprovante),
      m ∈ conciliar_loop cfg es cs ls usados → m.comprovante = some c →
      some c.cid ∉ usados := by
  intro ls
  induction ls with
  | nil =>
    intro usados m c h
    simp [conciliar_loop] at h
  | cons l ls ih =>
    intro usados m c h hc
    cases ha : aplicar_estrategias cfg es l cs usados with
    | none =>
      simp only [conciliar_loop, ha] at h
      exact ih _ m c h hc
    | some m0 =>
      simp only [conciliar_loop, ha] at h
      rcases List.mem_cons.mp h with h1 | h2
      · subst h1
        exact aplicar_estrategias_respeita cfg es hres l cs usados m c ha hc
      · intro hmem
        exact ih _ m c h2 hc (List.mem_cons_of_mem _ hmem)

theorem conciliar_loop_sem_reuso (cfg : MotorConfig) (es : List Estrategia)
    (cs : List Comprovante) (hres : ∀ e ∈ es, RespeitaUsados e) :
    ∀ (ls : List Lancamento) (usados : List CId),
      SemReusoDeComprovante (conciliar_loop cfg es cs ls usados) := by
  intro ls
  induction ls with
  | nil =>
    intro usados
    exact List.Pairwise.nil
  | cons l ls ih =>
    intro usados
    unfold SemReusoDeComprovante
    cases ha : aplicar_estrategias cfg es l cs usados with
    | none =>
      simp only [conciliar_loop, ha]
      exact ih usados
    | some m0 =>
      simp only [conciliar_loop, ha]
      refine List.Pairwise.cons ?_ (ih (registrar_match usados m0))
      intro m' hm' c0 c' h0 h'
      have hfresh := conciliar_loop_fresh cfg es cs hres ls
        (registrar_match usados m0) m' c' hm' h'
      intro hcid
      apply hfresh
      rw [registrar_match, h0, ← hcid]
      exact List.mem_cons_self _ _

/-- C1: a `conciliar` run of the motor's strategy cascade (the
rule-based strategy followed by the exact-match strategy) never returns
two matches referencing the same receipt identity: an accepted match's
receipt is added to the consumed set and the exact-match strategy skips
every receipt whose identity is in that set, so one receipt matched by
two transactions yields exactly one `Match`. -/
theorem conciliar_sem_reuso (cfg : MotorConfig) (rf : RegexFn)
    (rs : List Regra) (cfgE : EstrategiaExatoCfg)
    (ls : List Lancamento) (cs : List Comprovante) (ms : List Match)
    (hok : conciliar cfg [estrategia_regras rf rs, estrategia_exato cfgE]
      ls cs = Except.ok ms) :
    SemReusoDeComprovante ms := by
  have hres : ∀ e ∈ [estrategia_regras rf rs, estrategia_exato cfgE],
      RespeitaUsados e := by
    intro e he
    rcases List.mem_cons.mp he with h | h
    · subst h
      exact estrategia_regras_respeita rf rs
    · rcases List.mem_cons.mp h with h2 | h2
      · subst h2
        exact estrategia_exato_respeita cfgE
      · exact absurd h2 (List.not_mem_nil e)
  cases ls with
  | nil => simp [conciliar] at hok
  | cons l0 ls' =>
    simp only [conciliar, Except.ok.injEq] at hok
    subst hok
    exact conciliar_loop_sem_reuso cfg _ cs hres _ []

/-- Witness for C1: the receipt-reuse scenario — two transactions that
both match the single receipt produce exactly one `Match` (the second
transaction stays unmatched) and the run satisfies the no-reuse
invariant. -/
theorem conciliar_sem_reuso_witness :
    (ok_ou_vazio
        (conciliar mcfg_padrao
          [estrategia_regras rf_falso [], estrategia_exato cfg_exato_padrao]
          [lanc_reuso_a, lanc_reuso_b] [comp_reuso])).length = 1 ∧
    SemReusoDeComprovante (ok_ou_vazio
      (conciliar mcfg_padrao
        [estrategia_regras rf_falso [], estrategia_exato cfg_exato_padrao]
        [lanc_reuso_a, lanc_reuso_b] [comp_reuso])) :=
  ⟨by with_unfolding_all decide,
   conciliar_sem_reuso mcfg_padrao rf_falso [] cfg_exato_padrao
     [lanc_reuso_a, lanc_reuso_b] [comp_reuso] _
     (by with_unfolding_all rfl)⟩

theorem find?_particao {α : Type} (p : α → Bool) :
    ∀ (xs : List α) (x : α), xs.find? p = some x →
      ∃ pre post, xs = pre ++ x :: post ∧ (∀ y ∈ pre, p y = false) ∧
        p x = true := by
  intro xs
  induction xs with
  | nil =>
    intro x h
    simp [List.find?] at h
  | cons a as ih =>
    intro x h
    cases hp : p a with
    | true =>
      simp only [List.find?, hp] at h
      obtain rfl := Option.some.inj h
      exact ⟨[], as, rfl, by simp, hp⟩
    | false =>
      simp only [List.find?, hp] at h
      obtain ⟨pre, post, heq, hpre, hx⟩ := ih x h
      refine ⟨a :: pre, post, by rw [heq]; rfl, ?_, hx⟩
      intro y hy
      rcases List.mem_cons.mp hy with rfl | hy
      · exact hp
      · exact hpre y hy

theorem find?_primeiro {α : Type} (p : α → Bool) :
    ∀ (pre : List α) (x : α) (post : List α),
      (∀ y ∈ pre, p y = false) → p x = true →
      (pre ++ x :: post).find? p = some x := by
  intro pre
  induction pre with
  | nil =>
    intro x post _ hx
    simp [List.find?, hx]
  | cons a as ih =>
    intro x post hpre hx
    have ha : p a = false := hpre a (List.mem_cons_self _ _)
    simp only [List.cons_append, List.find?, ha]
    exact ih x post (fun y hy => hpre y (List.mem_cons_of_mem _ hy)) hx

/-- C3: for every transaction and every rule list, the engine's sort is
descending by priority, `processar` returns the synthetic match of the
first rule all of whose conditions hold and never a later rule (every
rule before the satisfier fails, and conversely the first satisfier is
returned, however many non-matching rules precede it), returns `none`
when no rule fully matches, and when two rules both match the result is
built from the higher-priority rule alone — its observations referencing
only that rule's id — whatever the insertion order. -/
theorem processar_cascata (rf : RegexFn) (l : Lancamento) :
    (∀ rs : List Regra,
      List.Sorted (fun a b => b.prioridade ≤ a.prioridade)
        (ordenar_por_prioridade rs)) ∧
    (∀ (rs : List Regra) (m : Match), processar rf l rs = some m →
      ∃ pre r post, rs = pre ++ r :: post ∧
        (∀ r' ∈ pre, avaliar_regra rf l r' = false) ∧
        avaliar_regra rf l r = true ∧ m = criar_match l r) ∧
    (∀ (pre : List Regra) (r : Regra) (post : List Regra),
      (∀ r' ∈ pre, avaliar_regra rf l r' = false) →
      avaliar_regra rf l r = true →
      processar rf l (pre ++ r :: post) = some (criar_match l r)) ∧
    (∀ rs : List Regra, (∀ r ∈ rs, avaliar_regra rf l r = false) →
      processar rf l rs = none) ∧
    (∀ r1 r2 : Regra, r2.prioridade < r1.prioridade →
      avaliar_regra rf l r1 = true → avaliar_regra rf l r2 = true →
      processar rf l (ordenar_por_prioridade [r1, r2]) =
        some (criar_match l r1) ∧
      processar rf l (ordenar_por_prioridade [r2, r1]) =
        some (criar_match l r1)) := by
  refine ⟨?_, ?_, ?_, ?_, ?_⟩
  · intro rs
    haveI : IsTotal Regra (fun a b => b.prioridade ≤ a.prioridade) :=
      ⟨fun a b => le_total b.prioridade a.prioridade⟩
    haveI : IsTrans Regra (fun a b => b.prioridade ≤ a.prioridade) :=
      ⟨fun _ _ _ h1 h2 => le_trans h2 h1⟩
    exact List.sorted_insertionSort _ rs
  · intro rs m h
    simp only [processar] at h
    cases hf : rs.find? (fun r => avaliar_regra rf l r) with
    | none =>
      rw [hf] at h
      exact Option.noConfusion h
    | some r =>
      rw [hf] at h
      obtain rfl := Option.some.inj h
      obtain ⟨pre, post, heq, hpre, hr⟩ := find?_particao _ rs r hf
      exact ⟨pre, r, post, heq, hpre, hr, rfl⟩
  · intro pre r post hpre hr
    simp [processar, find?_primeiro _ pre r post hpre hr]
  · intro rs hall
    have hnone : rs.find? (fun r => avaliar_regra rf l r) = none :=
      List.find?_eq_none.mpr (fun r hr => by simp [hall r hr])
    simp [processar, hnone]
  · intro r1 r2 hp h1 _h2
    have hsort1 : ordenar_por_prioridade [r1, r2] = [r1, r2] := by
      simp [ordenar_por_prioridade, List.insertionSort, List.orderedInsert,
        le_of_lt hp]
    have hsort2 : ordenar_por_prioridade [r2, r1] = [r1, r2] := by
      simp [ordenar_por_prioridade, List.insertionSort, List.orderedInsert,
        not_le.mpr hp]
    constructor
    · rw [hsort1]
      simp [processar, List.find?, h1]
    · rw [hsort2]
      simp [processar, List.find?, h1]

/-- Witness for C3: a non-matching higher-priority rule (requiring a
credit transaction) is skipped in favor of the later matching debit
rule, and two debit rules both matching the tariff transaction resolve
to the higher-priority one whatever the insertion order. -/
theorem processar_cascata_witness :
    processar rf_falso lanc_tarifa_doc [regra_credito, regra_alta] =
      some (criar_match lanc_tarifa_doc regra_alta) ∧
    processar rf_falso lanc_tarifa_doc
        (ordenar_por_prioridade [regra_baixa, regra_alta]) =
      some (criar_match lanc_tarifa_doc regra_alta) :=
  ⟨(processar_cascata rf_falso lanc_tarifa_doc).2.2.1 [regra_credito]
      regra_alta []
      (fun r' hr' => by
        obtain rfl := List.mem_singleton.mp hr'
        with_unfolding_all decide)
      (by with_unfolding_all decide),
   ((processar_cascata rf_falso lanc_tarifa_doc).2.2.2.2 regra_alta
      regra_baixa (by with_unfolding_all decide)
      (by with_unfolding_all decide) (by with_unfolding_all decide)).2⟩

/-- C6 counterexample: the TARIFA transaction against a contains/equals
rule whose action leaves the confidence unspecified — the engine
produces the match with the `0.85` default, which is **not** `≥ 0.90`,
refuting the claim as stated. -/
theorem processar_tarifa_contraexemplo :
    ∃ m, processar rf_falso lanc_tarifa_doc
        (ordenar_por_prioridade [regra_tarifa none]) = some m ∧
      m.comprovante = none ∧ m.metodo = "regra" ∧
      m.confianca = 0.85 ∧ ¬ (m.confianca ≥ 0.90) := by
  refine ⟨criar_match lanc_tarifa_doc (regra_tarifa none), ?_, rfl, rfl,
    rfl, ?_⟩
  · with_unfolding_all rfl
  · with_unfolding_all decide

/-- C6 (amended): the engine produces a `Match` with null receipt and
method `"regra"` whose confidence is the rule's action confidence, so
it is `≥ 0.90` exactly when the rule specifies such a confidence (as
the repository's own rule fixtures do). -/
theorem processar_tarifa_regra (q : ℚ) (hq : q ≥ 0.90) :
    processar rf_falso lanc_tarifa_doc
        (ordenar_por_prioridade [regra_tarifa (some q)]) =
      some (criar_match lanc_tarifa_doc (regra_tarifa (some q))) ∧
    (criar_match lanc_tarifa_doc (regra_tarifa (some q))).comprovante =
      none ∧
    (criar_match lanc_tarifa_doc (regra_tarifa (some q))).metodo =
      "regra" ∧
    (criar_match lanc_tarifa_doc (regra_tarifa (some q))).confianca ≥
      0.90 := by
  refine ⟨?_, rfl, rfl, hq⟩
  with_unfolding_all rfl

/-- Witness for C6 (amended): at action confidence `0.95` the engine
auto-approves the tariff transaction with confidence `≥ 0.90`. -/
theorem processar_tarifa_regra_witness :
    processar rf_falso lanc_tarifa_doc
        (ordenar_por_prioridade [regra_tarifa (some 0.95)]) =
      some (criar_match lanc_tarifa_doc (regra_tarifa (some 0.95))) ∧
    (criar_match lanc_tarifa_doc (regra_tarifa (some 0.95))).confianca ≥
      0.90 :=
  ⟨(processar_tarifa_regra 0.95 (by with_unfolding_all decide)).1,
   (processar_tarifa_regra 0.95 (by with_unfolding_all decide)).2.2.2⟩

set_option maxHeartbeats 2000000 in
/-- C4: the exact strategy's confidence equals the additive score of
the spec — `0.50` for an exactly equal amount; `0.30`/`0.25`/`0.20` for
a date difference of 0/1/2 days and `0.15` for a larger difference
still within the configured window; `0.15` when description similarity
is enabled and the Jaccard similarity of transaction description and
receipt beneficiary reaches the configured threshold; `0.05` for an OCR
confidence of at least `0.80`; clamped into `[0,1]`. -/
theorem calcular_confianca_formula (cfg : EstrategiaExatoCfg)
    (l : Lancamento) (c : Comprovante) :
    calcular_confianca cfg l c =
      max 0 (min 1 (
        (if l.valor = c.valor then (0.50 : ℚ) else 0) +
        (if (l.data - c.data).natAbs = 0 then (0.30 : ℚ)
         else if (l.data - c.data).natAbs = 1 then 0.25
         else if (l.data - c.data).natAbs = 2 then 0.20
         else if 2 < (l.data - c.data).natAbs ∧
             (l.data - c.data).natAbs ≤ cfg.tolerancia_dias then 0.15
         else 0) +
        (if cfg.usar_descricao = true ∧
            calcular_similaridade_descricao l.descricao
              (c.beneficiario.getD "") ≥ cfg.min_similaridade_descricao
         then (0.15 : ℚ) else 0) +
        (if c.confianca_ocr ≥ 0.80 then (0.05 : ℚ) else 0))) := by
  have hocr : (c.confianca_ocr ≠ 0 ∧ c.confianca_ocr ≥ 0.80) ↔
      c.confianca_ocr ≥ 0.80 :=
    ⟨fun h => h.2, fun h => ⟨ne_of_gt (lt_of_lt_of_le (by norm_num) h), h⟩⟩
  unfold calcular_confianca
  simp only [hocr]
  split_ifs <;> first | omega | tauto | norm_num

/-- C7 counterexample: a rule document whose `between` condition
carries a scalar literal (not a two-element `[min, max]` list) passes
the loader's validation — `carregar` returns the rule set instead of
raising, refuting the claim that this is rejected at load time. -/
theorem carregar_between_contraexemplo :
    carregar doc_between_escalar = Except.ok [regra_between_escalar] := by
  with_unfolding_all rfl

/-- C7 (amended): the loader's validation does reject missing required
fields, duplicate ids, unknown operators and unknown action kinds, but
it performs no check on the shape of a `between` literal — such a rule
set loads successfully, and the malformed `between` condition instead
fails closed (evaluates to `false`) at rule-evaluation time. -/
theorem carregar_between_sem_verificacao :
    (carregar doc_between_escalar = Except.ok [regra_between_escalar]) ∧
    (∀ (v : ValorCampo) (e : Yaml), (∀ a b, e ≠ Yaml.list [a, b]) →
      op_between v e = false) ∧
    (∃ err, validar_regras [regra_op_desconhecido] = Except.error err) ∧
    (∃ err, validar_regras [regra_dup, regra_dup] = Except.error err) ∧
    (∃ err, validar_regras [regra_sem_nome] = Except.error err) ∧
    (∃ err, validar_regras [regra_acao_invalida] = Except.error err) := by
  refine ⟨by with_unfolding_all rfl, ?_, ⟨_, by with_unfolding_all rfl⟩,
    ⟨_, by with_unfolding_all rfl⟩, ⟨_, by with_unfolding_all rfl⟩,
    ⟨_, by with_unfolding_all rfl⟩⟩
  intro v e h
  cases e with
  | str s => rfl
  | num q => rfl
  | bool b => rfl
  | null => rfl
  | dict d => rfl
  | list l =>
    match l with
    | [] => rfl
    | [x] => rfl
    | [x, y] => exact absurd rfl (h x y)
    | x :: y :: z :: resto => rfl

/-- Witness for C7 (amended): `between` against the scalar literal `10`
evaluates to `false` rather than failing at load time. -/
theorem carregar_between_sem_verificacao_witness :
    op_between (ValorCampo.num 10) (Yaml.num 10) = false :=
  carregar_between_sem_verificacao.2.1 (ValorCampo.num 10) (Yaml.num 10)
    (fun _ _ h => Yaml.noConfusion h)
